import Mathlib

/-!
Verification of the query construction and result shaping pipeline of
`pypinfo/core.py` (package `pypinfo`), via a shallow embedding in Lean.

Python machine-level conventions embedded here:
  * `int(text)` on a string: surrounding whitespace stripped, optional sign,
    then decimal digits; failure raises `ValueError` (modelled as `none`).
    (Underscore digit grouping, accepted by CPython, is not modelled; no
    input in this development uses it.)
  * `str.split("-")` with a one-character separator: split at every
    occurrence, empty pieces kept.
  * `datetime.strptime(s, "%Y-%m-%d")`: the CPython `_strptime` regexes,
    namely exactly four digits for `%Y`, `1[0-2]|0[1-9]|[1-9]` for `%m`,
    `3[01]|[12][0-9]|0[1-9]|[1-9]` for `%d`, plus calendar validation by the
    `datetime` constructor, and no unconverted trailing text.
-/

set_option maxRecDepth 100000

namespace Pypinfo

/-- One byte-level decimal digit character. -/
def digitChar : Nat → Char
  | 0 => '0' | 1 => '1' | 2 => '2' | 3 => '3' | 4 => '4'
  | 5 => '5' | 6 => '6' | 7 => '7' | 8 => '8' | _ => '9'

def digitVal (c : Char) : Nat := c.toNat - 48

/-- Decimal digits, most significant first, with structural fuel (the fuel
is an upper bound on the value; it only exists to make the recursion
structural, so that the definition reduces inside the kernel). -/
def natDigitsGo : Nat → Nat → List Char
  | 0, _ => []
  | fuel + 1, n =>
    if n < 10 then [digitChar n]
    else natDigitsGo fuel (n / 10) ++ [digitChar (n % 10)]

/-- Decimal digits of a natural number, most significant first (`str(n)`). -/
def natDigits (n : Nat) : List Char := natDigitsGo (n + 1) n

def natStr (n : Nat) : String := String.mk (natDigits n)

/-- `str(z)` for a Python integer. -/
def intStr (z : Int) : String :=
  if z < 0 then String.mk ('-' :: natDigits z.natAbs) else natStr z.natAbs

/-- Left zero-padding to width `w`, as in `%04d` / `%02d`. -/
def zpad (w : Nat) (l : List Char) : List Char :=
  List.replicate (w - l.length) '0' ++ l

/-- Value of a digit list read most significant first. -/
def valFold (l : List Char) (a : Nat) : Nat :=
  l.foldl (fun acc c => 10 * acc + digitVal c) a

/-- An ASCII decimal digit (what `str.isdigit` tests on byte strings, and
what the CPython strptime regexes match with `\d`). -/
def isDigitChar (c : Char) : Bool := 48 ≤ c.toNat && c.toNat ≤ 57

/-- Parse a nonempty all-digit character list to its value. -/
def parseDigits (l : List Char) : Option Nat :=
  if l ≠ [] ∧ l.all isDigitChar then some (valFold l 0) else none

/-- Whitespace stripped by Python `int()` and `str.rstrip()`. -/
def pySpace (c : Char) : Bool :=
  c.toNat = 32 || c.toNat = 9 || c.toNat = 10 || c.toNat = 13 ||
  c.toNat = 11 || c.toNat = 12

def pyStrip (l : List Char) : List Char :=
  ((l.dropWhile pySpace).reverse.dropWhile pySpace).reverse

/-- Python `int(text)` on a character list (`ValueError` is `none`). -/
def pyIntChars? (l : List Char) : Option Int :=
  match pyStrip l with
  | [] => none
  | c :: ds =>
    if c = '-' then (parseDigits ds).map (fun n => -(n : Int))
    else if c = '+' then (parseDigits ds).map (fun n => (n : Int))
    else (parseDigits (c :: ds)).map (fun n => (n : Int))

/-- Python `int(text)` on a string. -/
def pyInt? (s : String) : Option Int := pyIntChars? s.toList

/-- Python `text.split(sep)` for a one-character separator, with an
accumulator for the piece currently being read (in reverse). -/
def pySplit (sep : Char) : List Char → List Char → List (List Char)
  | [], cur => [cur.reverse]
  | c :: rest, cur =>
    if c = sep then cur.reverse :: pySplit sep rest []
    else pySplit sep rest (c :: cur)

/-- `calendar.isleap`. -/
def isleap (y : Nat) : Bool := y % 4 = 0 && (y % 100 ≠ 0 || y % 400 = 0)

/-- `calendar.monthrange(y, m)[1]`: number of days of the month. -/
def monthlen (y m : Nat) : Nat :=
  if m = 2 then (if isleap y then 29 else 28)
  else if m = 4 ∨ m = 6 ∨ m = 9 ∨ m = 11 then 30
  else 31

/-- `str(datetime.date(y, m, d))`: zero-padded ISO form `YYYY-MM-DD`. -/
def dateIso (y m d : Nat) : String :=
  String.mk (zpad 4 (natDigits y) ++ '-' :: zpad 2 (natDigits m) ++
    '-' :: zpad 2 (natDigits d))

/-- The `YYYY-MM` string for a year and month (zero-padded). -/
def ymStr (y m : Nat) : String :=
  String.mk (zpad 4 (natDigits y) ++ '-' :: zpad 2 (natDigits m))

/-- `core.month_ends`: `year, month = map(int, yyyy_mm.split("-"))`, then the
first and last day of that month as ISO strings.  Any `ValueError` (wrong
number of pieces, non-integer piece, or year/month out of the
`datetime.date` range) is `none`. -/
def month_ends (yyyy_mm : String) : Option (String × String) :=
  match (pySplit '-' yyyy_mm.toList []).map pyIntChars? with
  | [some y, some m] =>
    if 1 ≤ y ∧ y ≤ 9999 ∧ 1 ≤ m ∧ m ≤ 12 then
      some (dateIso y.toNat m.toNat 1,
            dateIso y.toNat m.toNat (monthlen y.toNat m.toNat))
    else none
  | _ => none

/-- `core.normalize_dates`: expand a `yyyy-mm` bound to the first (start) or
last (end) day of the month; every failure of `month_ends` is swallowed and
the bound passes through unchanged. -/
def normalize_dates (start_date end_date : String) : String × String :=
  (match month_ends start_date with | some p => p.1 | none => start_date,
   match month_ends end_date with | some p => p.2 | none => end_date)

/-- Errors raised by the embedded code (all are Python `ValueError` /
`ZeroDivisionError` values; the payload identifies the message). -/
inductive PyError
  /-- `ValueError("Dates must be negative integers or YYYY-MM[-DD] in the past.")` -/
  | invalidDate
  /-- `ValueError` from `int(s)` on a non-integer literal `s`. -/
  | intLiteral (s : String)
  deriving DecidableEq, Repr

/-- The user-facing message of each error. -/
def PyError.message : PyError → String
  | .invalidDate => "Dates must be negative integers or YYYY-MM[-DD] in the past."
  | .intLiteral s => "invalid literal for int() with base 10: " ++ s

/-- `%Y` in CPython strptime: exactly four digits. -/
def parseYear : List Char → Option (Nat × List Char)
  | a :: b :: c :: d :: rest =>
    if isDigitChar a ∧ isDigitChar b ∧ isDigitChar c ∧ isDigitChar d then
      some (digitVal a * 1000 + digitVal b * 100 + digitVal c * 10 + digitVal d, rest)
    else none
  | _ => none

/-- `%m` in CPython strptime: regex `1[0-2]|0[1-9]|[1-9]`, tried in order. -/
def parseMonth : List Char → Option (Nat × List Char)
  | c1 :: c2 :: rest =>
    if c1 = '1' ∧ (c2 = '0' ∨ c2 = '1' ∨ c2 = '2') then some (10 + digitVal c2, rest)
    else if c1 = '0' ∧ isDigitChar c2 ∧ c2 ≠ '0' then some (digitVal c2, rest)
    else if isDigitChar c1 ∧ c1 ≠ '0' then some (digitVal c1, c2 :: rest)
    else none
  | [c1] => if isDigitChar c1 ∧ c1 ≠ '0' then some (digitVal c1, []) else none
  | [] => none

/-- `%d` in CPython strptime: regex `3[01]|[12][0-9]|0[1-9]|[1-9]`, in order. -/
def parseDay : List Char → Option (Nat × List Char)
  | c1 :: c2 :: rest =>
    if c1 = '3' ∧ (c2 = '0' ∨ c2 = '1') then some (30 + digitVal c2, rest)
    else if (c1 = '1' ∨ c1 = '2') ∧ isDigitChar c2 then some (digitVal c1 * 10 + digitVal c2, rest)
    else if c1 = '0' ∧ isDigitChar c2 ∧ c2 ≠ '0' then some (digitVal c2, rest)
    else if isDigitChar c1 ∧ c1 ≠ '0' then some (digitVal c1, c2 :: rest)
    else none
  | [c1] => if isDigitChar c1 ∧ c1 ≠ '0' then some (digitVal c1, []) else none
  | [] => none

/-- `datetime.strptime(s, "%Y-%m-%d")`: the three captures separated by
literal dashes, no unconverted text, and the `datetime` constructor check
(year at least 1; day within the month, leap-aware). -/
def strptimeYmd? (s : String) : Option (Nat × Nat × Nat) :=
  match parseYear s.toList with
  | some (y, '-' :: r2) =>
    match parseMonth r2 with
    | some (m, '-' :: r4) =>
      match parseDay r4 with
      | some (d, r5) =>
        if r5 = [] ∧ 1 ≤ y ∧ d ≤ monthlen y m then some (y, m, d) else none
      | none => none
    | _ => none
  | _ => none

instance {ε α : Type} [DecidableEq ε] [DecidableEq α] : DecidableEq (Except ε α) :=
  fun x y =>
    match x, y with
    | .ok a, .ok b =>
      if h : a = b then .isTrue (by rw [h]) else .isFalse (by simp [h])
    | .error a, .error b =>
      if h : a = b then .isTrue (by rw [h]) else .isFalse (by simp [h])
    | .ok _, .error _ => .isFalse (fun h => Except.noConfusion h)
    | .error _, .ok _ => .isFalse (fun h => Except.noConfusion h)

/-- `core.validate_date`: accept a string whose `int()` value is negative, or
one accepted by `strptime("%Y-%m-%d")`; otherwise raise `ValueError` with the
message naming the accepted forms. -/
def validate_date (date_text : String) : Except PyError Bool :=
  if (match pyInt? date_text with | some n => decide (n < 0) | none => false) then
    Except.ok true
  else if (strptimeYmd? date_text).isSome then Except.ok true
  else Except.error PyError.invalidDate

/-- Modelled from the spec: `pypinfo/fields.py` is not under `src/`.  Per the
spec (§3), a Field is an identity (name) plus the SQL expression it computes;
fields are compared and deduplicated by identity. -/
structure Field where
  name : String
  data : String
  deriving DecidableEq, Repr

/-- Modelled from the spec: the fixed synthesized `Downloads` field, named
`download_count` (the default ORDER BY name), computing a count. -/
def Downloads : Field := ⟨"download_count", "COUNT(*)"⟩

/-- `packaging.utils.canonicalize_name`: collapse every run of `-`, `_`, `.`
to a single `-` (regex `[-_.]+` substituted by `-`), then lowercase.  The
boolean tracks whether the previous character belonged to such a run. -/
def canonSub : Bool → List Char → List Char
  | _, [] => []
  | inRun, c :: rest =>
    if c = '-' ∨ c = '_' ∨ c = '.' then
      if inRun then canonSub true rest else '-' :: canonSub true rest
    else c :: canonSub false rest

def canonicalize_name (s : String) : String :=
  String.mk ((canonSub false s.toList).map Char.toLower)

def FROM : String := "FROM `bigquery-public-data.pypi.file_downloads`"

/-- `DATE_ADD.format(n)`. -/
def DATE_ADD (n : Int) : String :=
  "TIMESTAMP_ADD(CURRENT_TIMESTAMP(), INTERVAL " ++ intStr n ++ " DAY)"

/-- `START_TIMESTAMP.format(d)`. -/
def START_TIMESTAMP (d : String) : String := "TIMESTAMP(\"" ++ d ++ " 00:00:00\")"

/-- `END_TIMESTAMP.format(d)`. -/
def END_TIMESTAMP (d : String) : String := "TIMESTAMP(\"" ++ d ++ " 23:59:59\")"

def START_DATE : String := "-31"

def END_DATE : String := "-1"

def DEFAULT_LIMIT : Int := 10

/-- `core.format_date`: an integer bound becomes a relative `TIMESTAMP_ADD`
expression, anything else is wrapped by the given timestamp format. -/
def format_date (d : String) (timestamp_format : String → String) : String :=
  match pyInt? d with
  | some n => DATE_ADD n
  | none => timestamp_format d

/-- Python truthiness of `x or dflt` for an optional string (`None` and the
empty string are falsy). -/
def pyOrStr (x : Option String) (dflt : String) : String :=
  match x with
  | some s => if s = "" then dflt else s
  | none => dflt

/-- The field deduplication loop of `build_query`: `fields`/`used_fields`
accumulation, keeping the first occurrence of each field. -/
def dedup_loop (used : List Field) : List Field → List Field
  | [] => []
  | f :: fs =>
    if f ∈ used then dedup_loop used fs
    else f :: dedup_loop (f :: used) fs

/-- The list of fields `build_query` selects: the deduplicated request,
then the fixed `Downloads` field appended. -/
def selected_fields (all_fields : List Field) : List Field :=
  dedup_loop [] all_fields ++ [Downloads]

/-- Lines 116 to 121 of `core.py`:
`try: if int(start) >= int(end): raise ValueError(...)  except ValueError: pass`.
Both a failed `int()` conversion and the deliberately raised range error are
`ValueError`s caught by the same `except` clause, so the block never
propagates an error; it is kept here with the full case split to record
that every path falls through. -/
def range_check (start_date end_date : String) : Except PyError Unit :=
  match pyInt? start_date, pyInt? end_date with
  | some a, some b =>
    if a ≥ b then
      Except.ok ()  -- the raised ValueError is caught by `except ValueError: pass`
    else Except.ok ()
  | _, _ => Except.ok ()  -- int() raised ValueError; caught: pass

/-- The `WHERE` condition fragments built when no raw `where` is supplied. -/
def where_conditions (project : String) (pip : Bool) : List String :=
  (if project ≠ "" then ["file.project = \"" ++ project ++ "\"\n"] else []) ++
  (if pip then ["details.installer.name = \"pip\"\n"] else [])

/-- The `GROUP BY` block of `build_query` (empty string when not emitted).
The source guards the append with `len(gb) > initial_length`, but the
two-space indent and newline are appended unconditionally, so the guard
always holds once `len(fields) > 1`. -/
def group_by_block (aggregates : List Field) (fields : List Field) : String :=
  if fields.length > 1 then
    let gb := "GROUP BY\n"
    let initial_length := gb.length
    let non_aggregate_fields :=
      (fields.dropLast.filter (fun f => !(aggregates.contains f))).map Field.name
    let gb := gb ++ "  " ++ String.intercalate ", " non_aggregate_fields ++ "\n"
    if gb.length > initial_length then gb else ""
  else ""

/-- `core.build_query`, shallowly embedded.  `aggregates` stands for the
`AGGREGATES` set imported from `pypinfo.fields` (modelled from the spec:
the catalog of aggregate-tagged fields is external).  Raised `ValueError`s
are the `Except.error` results. -/
def build_query (aggregates : List Field) (project : String)
    (all_fields : List Field) (start_date end_date : Option String)
    (days : Option Int) (limit : Option Int) (where_ : Option String)
    (order : Option String) (pip : Bool) : Except PyError String := do
  let project := canonicalize_name project
  let start_date := pyOrStr start_date START_DATE
  let end_date := pyOrStr end_date END_DATE
  let limit : Int := match limit with
    | some l => if l = 0 then DEFAULT_LIMIT else l
    | none => DEFAULT_LIMIT
  let start_date ← (match days with
    | some d =>
      if d ≠ 0 then
        match pyInt? end_date with
        | some e => Except.ok (intStr (e - d))  -- str(int(end_date) - days)
        | none => Except.error (PyError.intLiteral end_date)
      else Except.ok start_date
    | none => Except.ok start_date : Except PyError String)
  let (start_date, end_date) := normalize_dates start_date end_date
  let _ ← validate_date start_date
  let _ ← validate_date end_date
  let _ ← range_check start_date end_date
  let start_date := format_date start_date START_TIMESTAMP
  let end_date := format_date end_date END_TIMESTAMP
  let fields := selected_fields all_fields
  let query := "SELECT\n" ++
    String.join (fields.map (fun f => "  " ++ f.data ++ " as " ++ f.name ++ ",\n"))
  let query := query ++ FROM
  let query := query ++ "\nWHERE timestamp BETWEEN " ++ start_date ++ " AND " ++
    end_date ++ "\n"
  let query := query ++ (match where_ with
    | some w =>
      if w ≠ "" then "  AND " ++ w ++ "\n"
      else match where_conditions project pip with
        | [] => ""
        | conds => "  AND " ++ String.intercalate "  AND " conds
    | none => match where_conditions project pip with
      | [] => ""
      | conds => "  AND " ++ String.intercalate "  AND " conds)
  let query := query ++ group_by_block aggregates fields
  let query := query ++ "ORDER BY\n  " ++ pyOrStr order Downloads.name ++ " DESC\n"
  let query := query ++ "LIMIT " ++ intStr limit
  Except.ok query

/-- Round `a / b` (with `b ≠ 0`) to the nearest integer, ties to even: the
rounding used when a CPython float is formatted with a fixed precision.
The float division and formatting of the source are modelled by exact
rational arithmetic; the two agree whenever the quotient is exactly
representable (in particular on every concrete value in this file). -/
def roundHalfEvenNat (a b : Nat) : Nat :=
  let q := a / b
  let r := a % b
  if 2 * r < b then q
  else if 2 * r > b then q + 1
  else if q % 2 = 0 then q else q + 1

/-- `"{:.2%}".format(v / total)`: the quotient as a percentage with two
decimal places and a trailing sign. -/
def pyFormatPercent (v total : Int) : String :=
  let neg := (v < 0 && 0 < total) || (0 < v && total < 0)
  let k := roundHalfEvenNat (v.natAbs * 10000) total.natAbs
  (if neg then "-" else "") ++ natStr (k / 100) ++ "." ++
    String.mk (zpad 2 (natDigits (k % 100))) ++ "%"

def stripZerosRight (l : List Char) : List Char :=
  (l.reverse.dropWhile (fun c => c = '0')).reverse

/-- The exponent suffix of Python float formatting, two digits minimum. -/
def expSuffix (e : Int) : String :=
  (if e < 0 then "e-" else "e+") ++ String.mk (zpad 2 (natDigits e.natAbs))

/-- `"{:.2}".format(v / total)`: two significant digits in the general float
format (fixed notation for decimal exponents `-4` to `1`, exponent notation
outside, trailing zeros stripped, at least one fractional digit kept in
fixed notation).  The quotient is scaled by `10^6` and rounded half-to-even
once, so quotients below `5·10^-7` in magnitude render as `0.0`; the branch
is not exercised by any claim (the spec only fixes the signed variant). -/
def pyFormatG2 (v total : Int) : String :=
  let neg := (v < 0 && 0 < total) || (0 < v && total < 0)
  let n := roundHalfEvenNat (v.natAbs * 1000000) total.natAbs
  if n = 0 then "0.0"
  else
    let len := (natDigits n).length
    let m := if len ≤ 2 then n else
      let m0 := roundHalfEvenNat n (10 ^ (len - 2))
      if m0 ≥ 100 then m0 / 10 else m0
    let len := if len ≤ 2 then len else
      (if roundHalfEvenNat n (10 ^ (len - 2)) ≥ 100 then len + 1 else len)
    let e : Int := (len : Int) - 7
    let md := natDigits m
    let body :=
      if -4 ≤ e ∧ e ≤ 1 ∧ md.length = 2 then
        if e = 1 then String.mk md ++ ".0"
        else if e = 0 then
          String.mk [md.headD '0'] ++ "." ++
            (match stripZerosRight md.tail with
             | [] => "0"
             | fr => String.mk fr)
        else
          "0." ++ String.mk (List.replicate (-e - 1).toNat '0') ++
            String.mk (stripZerosRight md)
      else
        String.mk [md.headD '0'] ++
          (match stripZerosRight md.tail with
           | [] => ""
           | fr => "." ++ String.mk fr) ++ expSuffix e
    (if neg then "-" else "") ++ body

/-- The percentage cell text: `percent_format.format(int(row[index]) / total)`
with `percent_format = "{:.2%}" if include_sign else "{:.2}"`. -/
def percent_cell (include_sign : Bool) (v total : Int) : String :=
  if include_sign then pyFormatPercent v total else pyFormatG2 v total

/-- Python `list.insert(i, a)` (appends when `i` is past the end). -/
def list_insert (i : Nat) (a : α) (l : List α) : List α :=
  l.take i ++ a :: l.drop i

/-- Collect an optional value from every element; `none` as soon as one
fails (the shape of a Python loop whose body may raise). -/
def omapM (f : α → Option β) : List α → Option (List β)
  | [] => some []
  | a :: l =>
    match f a, omapM f l with
    | some b, some bs => some (b :: bs)
    | _, _ => none

/-- `core.add_percentages`: pop the header, find the `download_count` column,
insert a `percent` header immediately before it, sum the column over the
data rows, and insert each row percentage cell at the same index.  A missing
header row or column, a non-integer cell (`ValueError`), or a zero total
with at least one data row (`ZeroDivisionError`) is `none`. -/
def add_percentages (rows : List (List String)) (include_sign : Bool) :
    Option (List (List String)) := do
  let headers ← rows.head?
  let data := rows.tail
  let index ← headers.findIdx? (fun h => h = "download_count")
  let headers := list_insert index "percent" headers
  let vals ← omapM (fun row => (row.get? index).bind pyInt?) data
  let total_downloads := vals.foldl (· + ·) 0
  if total_downloads = 0 ∧ data ≠ [] then none
  else
    some (headers :: (data.zip vals).map
      (fun rv => list_insert index (percent_cell include_sign rv.2 total_downloads) rv.1))

/-- `item.isdigit()` for the byte-string cells of a table. -/
def pyIsDigit (s : String) : Bool := s.toList ≠ [] && s.toList.all isDigitChar

/-- Insert a comma after every third character of a reversed digit list:
the grouping of `"{:,}".format(n)` read from the right. -/
def chunk3Rev : List Char → List Char
  | a :: b :: c :: d :: rest => a :: b :: c :: ',' :: chunk3Rev (d :: rest)
  | l => l

/-- `"{:,}".format(int(item))`: thousands separators (leading zeros of the
original text disappear through `int`). -/
def commaFormat (n : Nat) : String :=
  String.mk ((chunk3Rev (natDigits n).reverse).reverse)

/-- The cell rewrite of the width pass of `tabulate`: digit-only cells get
thousands separators. -/
def process_cell (item : String) : String :=
  if pyIsDigit item then commaFormat (valFold item.toList 0) else item

/-- `item.endswith('%')`: the last character is a percent sign. -/
def endsWithPercent (s : String) : Bool :=
  match s.toList.getLast? with
  | some c => c = '%'
  | none => false

/-- A cell that switches its column to right alignment: digit-only, or
ending in a percent sign. -/
def cell_qualifies (item : String) : Bool := pyIsDigit item || endsWithPercent item

/-- One row of the first pass of `tabulate`, updating the column widths and
alignment flags.  Width is taken from `len(item)` where `item` still holds
the text BEFORE the thousands-separator rewrite (the source rebinds
`rows[r][i]` but not `item`).  The source allocates `right_align` as
`[[False] * n] * len(rows)`, whose rows all alias one list, so a flag set
through any row is set for the whole column; the flags are therefore one
per-column list here. -/
def row_pass : List Nat → List Bool → List String → List Nat × List Bool
  | w :: ws, f :: fs, item :: row =>
    let rest := row_pass ws fs row
    (max w item.length :: rest.1, (f || cell_qualifies item) :: rest.2)
  | ws, fs, _ => (ws, fs)

/-- The whole first pass of `tabulate` over every row (header included),
starting from `[0] * len(rows[0])` widths and all-false flags. -/
def table_pass (rows : List (List String)) : List Nat × List Bool :=
  rows.foldl (fun acc row => row_pass acc.1 acc.2 row)
    (List.replicate (rows.headD []).length 0,
     List.replicate (rows.headD []).length false)

/-- The column widths `tabulate` uses for padding. -/
def tabulateWidths (rows : List (List String)) : List Nat := (table_pass rows).1

/-- The per-column right-alignment flags `tabulate` uses. -/
def tabulateFlags (rows : List (List String)) : List Bool := (table_pass rows).2

/-- `' ' * n` for a possibly negative Python count. -/
def pySpaces (n : Int) : String := String.mk (List.replicate n.toNat ' ')

/-- `str.rstrip()`. -/
def pyRstrip (s : String) : String :=
  String.mk ((s.toList.reverse.dropWhile pySpace).reverse)

/-- One header cell: left-aligned, padded to the column width plus one. -/
def render_header_cell (w : Nat) (item : String) : String :=
  item ++ pySpaces ((w : Int) - item.length + 1) ++ "| "

/-- One separator cell: dashes across the width; under Markdown a trailing
colon marks a right-aligned column. -/
def render_sep_cell (markdown : Bool) (f : Bool) (w : Nat) : String :=
  String.mk (List.replicate (w - 1) '-') ++ (if f && markdown then ": | " else "- | ")

/-- One data cell: right-aligned cells are padded on the left, left-aligned
cells on the right (negative padding renders as no padding, as in Python). -/
def render_data_cell (w : Nat) (f : Bool) (item : String) : String :=
  "| " ++ (if f then pySpaces ((w : Int) - item.length) ++ item ++ " "
           else item ++ pySpaces ((w : Int) - item.length + 1))

/-- `core.tabulate`: the width/alignment pass, then the header line, the
separator line, and one line per data row.  `none` models the `IndexError`
the source raises on a table without a header row or without data rows
(`rows[0]` is read again after the header is popped). -/
def tabulate (rows : List (List String)) (markdown : Bool) : Option String := do
  let _ ← rows.head?
  let column_widths := tabulateWidths rows
  let right_align := tabulateFlags rows
  let processed := rows.map (fun r => r.map process_cell)
  let headers ← processed.head?
  let data := processed.tail
  let firstData ← data.head?
  let headerLine := pyRstrip ("| " ++
    String.join ((headers.zip column_widths).map (fun p => render_header_cell p.2 p.1)))
  let sepLine := pyRstrip ("| " ++
    String.join (((column_widths.zip right_align).take firstData.length).map
      (fun p => render_sep_cell markdown p.2 p.1)))
  let dataLines := String.join (data.map (fun row =>
    String.join ((row.zip (column_widths.zip right_align)).map
      (fun p => render_data_cell p.2.1 p.2.2 p.1)) ++ "|\n"))
  some (headerLine ++ "\n" ++ sepLine ++ "\n" ++ dataLines)

/-- The column widths the claim describes: the maximum DISPLAYED cell
length, measured after the thousands-separator rewrite. -/
def claimed_widths (rows : List (List String)) : List Nat :=
  (List.range (rows.headD []).length).map (fun i =>
    rows.foldl (fun acc r => max acc (process_cell (r.getD i "")).length) 0)

/-- Deduplication as the spec words it: keep the first occurrence of each
field, in request order (every later duplicate of the head is filtered out
before recursing).  The fuel argument, an upper bound on the list length,
only makes the recursion structural. -/
def specDedupGo : Nat → List Field → List Field
  | 0, _ => []
  | _ + 1, [] => []
  | fuel + 1, f :: fs => f :: specDedupGo fuel (fs.filter (fun g => decide (g ≠ f)))

/-- First-occurrence deduplication, as the spec describes it. -/
def spec_dedup (l : List Field) : List Field := specDedupGo l.length l

/-- The strings of the form `str(n)` for a negative Python integer `n`:
a minus sign, then digits with no leading zero. -/
def isNegIntString (s : String) : Bool :=
  match s.toList with
  | '-' :: d :: ds => isDigitChar d && d ≠ '0' && ds.all isDigitChar
  | _ => false

/-- A strict `YYYY-MM-DD` calendar date string: four-digit year, two-digit
month and day separated by dashes, with year ≥ 1, month 1..12, and day
within the (leap-aware) month. -/
def isYmdString (s : String) : Bool :=
  match s.toList with
  | [y1, y2, y3, y4, '-', m1, m2, '-', d1, d2] =>
    [y1, y2, y3, y4, m1, m2, d1, d2].all isDigitChar &&
    (let y := digitVal y1 * 1000 + digitVal y2 * 100 + digitVal y3 * 10 + digitVal y4
     let m := digitVal m1 * 10 + digitVal m2
     let d := digitVal d1 * 10 + digitVal d2
     decide (1 ≤ y) && decide (1 ≤ m) && decide (m ≤ 12) &&
       decide (1 ≤ d) && decide (d ≤ monthlen y m))
  | _ => false

/-- C1.  The claim says a `QuerySpec` whose bounds both parse as integers
with `start ≥ end` makes `build_query` fail with `InvalidRange` and produce
no SQL text.  The code instead raises that `ValueError` inside a `try`
whose own `except ValueError: pass` (written for the two `int()` calls)
catches it, so at the failing input `start="-1"`, `end="-2"` the build
succeeds and returns the complete SQL text. -/
theorem claim_C1_range_error_swallowed :
    build_query [] "foo" [] (some "-1") (some "-2") none none none none false =
      Except.ok
        ("SELECT\n  COUNT(*) as download_count,\n" ++
         "FROM `bigquery-public-data.pypi.file_downloads`\n" ++
         "WHERE timestamp BETWEEN TIMESTAMP_ADD(CURRENT_TIMESTAMP(), INTERVAL -1 DAY)" ++
         " AND TIMESTAMP_ADD(CURRENT_TIMESTAMP(), INTERVAL -2 DAY)\n" ++
         "  AND file.project = \"foo\"\n" ++
         "ORDER BY\n  download_count DESC\nLIMIT 10") := by decide

/-- C3, counterexample.  The claim says `validate_date("0")` returns `True`;
it raises the `InvalidDate` error instead (`int("0") < 0` is false and `"0"`
is not a `%Y-%m-%d` date). -/
theorem claim_C3_cex : validate_date "0" ≠ Except.ok true := by decide

/-- C3, amended.  `validate` rejects the bound `0`: only strictly negative
offsets pass the integer branch, so `validate_date("0")` raises the
`InvalidDate` error naming the accepted forms. -/
theorem claim_C3_amended :
    validate_date "0" = Except.error PyError.invalidDate := by decide

/-- C4.  The claim (and the spec) say the `GROUP BY` clause is omitted
entirely when every selected field beyond `Downloads` is an aggregate.  The
omission guard `len(gb) > initial_length` is dead: the two-space indent and
the newline are appended unconditionally, so the guard always holds and a
bare `GROUP BY` with an empty name list is emitted.  Evaluated here at a
spec with one aggregate field: the output contains `GROUP BY\n  \n`. -/
theorem claim_C4_empty_group_by_emitted :
    build_query [⟨"project_count", "COUNT(DISTINCT file.project)"⟩] "foo"
        [⟨"project_count", "COUNT(DISTINCT file.project)"⟩]
        none none none none none none false =
      Except.ok
        ("SELECT\n  COUNT(DISTINCT file.project) as project_count,\n" ++
         "  COUNT(*) as download_count,\n" ++
         "FROM `bigquery-public-data.pypi.file_downloads`\n" ++
         "WHERE timestamp BETWEEN TIMESTAMP_ADD(CURRENT_TIMESTAMP(), INTERVAL -31 DAY)" ++
         " AND TIMESTAMP_ADD(CURRENT_TIMESTAMP(), INTERVAL -1 DAY)\n" ++
         "  AND file.project = \"foo\"\n" ++
         "GROUP BY\n  \n" ++
         "ORDER BY\n  download_count DESC\nLIMIT 10") := by decide

theorem digitVal_digitChar : ∀ n : Nat, n < 10 → digitVal (digitChar n) = n := by decide

theorem isDigitChar_digitChar : ∀ n : Nat, n < 10 → isDigitChar (digitChar n) = true := by
  decide

theorem valFold_cons (c : Char) (l : List Char) (a : Nat) :
    valFold (c :: l) a = valFold l (10 * a + digitVal c) := rfl

theorem valFold_append (l1 l2 : List Char) (a : Nat) :
    valFold (l1 ++ l2) a = valFold l2 (valFold l1 a) := by
  simp [valFold, List.foldl_append]

theorem natDigitsGo_spec : ∀ fuel n : Nat, n < fuel →
    valFold (natDigitsGo fuel n) 0 = n ∧
    (natDigitsGo fuel n).all isDigitChar = true ∧ natDigitsGo fuel n ≠ [] := by
  intro fuel
  induction fuel with
  | zero => intro n h; omega
  | succ f ih =>
    intro n h
    by_cases h10 : n < 10
    · refine ⟨?_, ?_, ?_⟩ <;>
        simp [natDigitsGo, h10, valFold, digitVal_digitChar n h10,
          isDigitChar_digitChar n h10]
    · have h0 : 0 < n := by omega
      have hdiv : n / 10 < f := by
        have hlt := Nat.div_lt_self h0 (by omega : 1 < 10)
        omega
      obtain ⟨ih1, ih2, ih3⟩ := ih (n / 10) hdiv
      have hm : n % 10 < 10 := Nat.mod_lt n (by omega)
      have heq : natDigitsGo (f + 1) n =
          natDigitsGo f (n / 10) ++ [digitChar (n % 10)] := by
        simp [natDigitsGo, h10]
      refine ⟨?_, ?_, ?_⟩
      · rw [heq, valFold_append, ih1, valFold_cons]
        simp only [valFold, List.foldl_nil]
        rw [digitVal_digitChar _ hm]
        omega
      · rw [heq]
        simp [List.all_append, ih2, isDigitChar_digitChar _ hm]
      · rw [heq]
        simp

theorem valFold_natDigits (n : Nat) : valFold (natDigits n) 0 = n :=
  (natDigitsGo_spec (n + 1) n (by omega)).1

theorem natDigits_all (n : Nat) : (natDigits n).all isDigitChar = true :=
  (natDigitsGo_spec (n + 1) n (by omega)).2.1

theorem natDigits_ne_nil (n : Nat) : natDigits n ≠ [] :=
  (natDigitsGo_spec (n + 1) n (by omega)).2.2

theorem valFold_replicate_zero : ∀ k : Nat, valFold (List.replicate k '0') 0 = 0 := by
  intro k
  induction k with
  | zero => rfl
  | succ k ih =>
    rw [List.replicate_succ, valFold_cons]
    have h0 : 10 * 0 + digitVal '0' = 0 := by decide
    rw [h0, ih]

theorem all_replicate_zero (k : Nat) :
    (List.replicate k '0').all isDigitChar = true := by
  rw [List.all_eq_true]
  intro c hc
  rw [List.eq_of_mem_replicate hc]
  decide

theorem zpad_ne_nil (w n : Nat) : zpad w (natDigits n) ≠ [] := by
  rw [zpad]
  simp [natDigits_ne_nil n]

theorem all_isDigit_zpad (w n : Nat) :
    (zpad w (natDigits n)).all isDigitChar = true := by
  rw [zpad, List.all_append, all_replicate_zero, natDigits_all n]
  rfl

theorem valFold_zpad (w n : Nat) : valFold (zpad w (natDigits n)) 0 = n := by
  rw [zpad, valFold_append, valFold_replicate_zero, valFold_natDigits]

theorem pySpace_of_digit (c : Char) (h : isDigitChar c = true) :
    pySpace c = false := by
  simp [isDigitChar] at h
  simp [pySpace]
  omega

theorem dropWhile_eq_self_of_none (p : Char → Bool) (l : List Char)
    (h : ∀ c ∈ l, p c = false) : l.dropWhile p = l := by
  cases l with
  | nil => rfl
  | cons c rest => simp [List.dropWhile_cons, h c (by simp)]

theorem pyStrip_eq_self (l : List Char) (h : ∀ c ∈ l, pySpace c = false) :
    pyStrip l = l := by
  rw [pyStrip, dropWhile_eq_self_of_none _ _ h,
    dropWhile_eq_self_of_none _ _ (fun c hc => h c (by simpa using hc)),
    List.reverse_reverse]

theorem isDigitChar_ne_dash {c : Char} (h : isDigitChar c = true) : ¬ c = '-' := by
  intro he
  rw [he] at h
  simp [isDigitChar] at h

theorem isDigitChar_ne_plus {c : Char} (h : isDigitChar c = true) : ¬ c = '+' := by
  intro he
  rw [he] at h
  simp [isDigitChar] at h

theorem pyIntChars_of_digits (l : List Char) (hne : l ≠ [])
    (hall : l.all isDigitChar = true) :
    pyIntChars? l = some ((valFold l 0 : Nat) : Int) := by
  have hstrip : pyStrip l = l :=
    pyStrip_eq_self l (fun c hc =>
      pySpace_of_digit c (List.all_eq_true.mp hall c hc))
  cases l with
  | nil => exact absurd rfl hne
  | cons c ds =>
    have hcd : isDigitChar c = true :=
      List.all_eq_true.mp hall c (List.mem_cons_self c ds)
    simp only [pyIntChars?, hstrip, if_neg (isDigitChar_ne_dash hcd),
      if_neg (isDigitChar_ne_plus hcd)]
    rw [parseDigits, if_pos ⟨hne, hall⟩]
    rfl

theorem pyIntChars_neg_digits (l : List Char) (hne : l ≠ [])
    (hall : l.all isDigitChar = true) :
    pyIntChars? ('-' :: l) = some (-((valFold l 0 : Nat) : Int)) := by
  have hstrip : pyStrip ('-' :: l) = '-' :: l := by
    apply pyStrip_eq_self
    intro c hc
    rcases List.mem_cons.mp hc with h | h
    · rw [h]; decide
    · exact pySpace_of_digit c (List.all_eq_true.mp hall c h)
  simp only [pyIntChars?, hstrip, if_pos rfl]
  simp [parseDigits, hne, hall]

theorem pyIntChars_zpad (w n : Nat) :
    pyIntChars? (zpad w (natDigits n)) = some (n : Int) := by
  rw [pyIntChars_of_digits _ (zpad_ne_nil w n) (all_isDigit_zpad w n), valFold_zpad]

theorem dash_not_mem_zpad (w n : Nat) : '-' ∉ zpad w (natDigits n) := by
  intro hm
  exact isDigitChar_ne_dash (List.all_eq_true.mp (all_isDigit_zpad w n) '-' hm) rfl

theorem pySplit_no_sep (sep : Char) : ∀ b cur : List Char, sep ∉ b →
    pySplit sep b cur = [cur.reverse ++ b] := by
  intro b
  induction b with
  | nil => intro cur h; simp [pySplit]
  | cons c rest ih =>
    intro cur h
    have hc : ¬ c = sep := fun he => h (he ▸ List.mem_cons_self c rest)
    simp only [pySplit, if_neg hc]
    rw [ih (c :: cur) (fun hm => h (List.mem_cons_of_mem c hm))]
    simp

theorem pySplit_with_sep (sep : Char) : ∀ a b cur : List Char, sep ∉ a →
    pySplit sep (a ++ sep :: b) cur = (cur.reverse ++ a) :: pySplit sep b [] := by
  intro a
  induction a with
  | nil => intro b cur h; simp [pySplit]
  | cons c rest ih =>
    intro b cur h
    have hc : ¬ c = sep := fun he => h (he ▸ List.mem_cons_self c rest)
    rw [List.cons_append]
    simp only [pySplit, if_neg hc]
    rw [ih b (c :: cur) (fun hm => h (List.mem_cons_of_mem c hm))]
    simp

theorem month_ends_ymStr (y m : Nat) (hy1 : 1 ≤ y) (hy2 : y ≤ 9999)
    (hm1 : 1 ≤ m) (hm2 : m ≤ 12) :
    month_ends (ymStr y m) = some (dateIso y m 1, dateIso y m (monthlen y m)) := by
  have hty : (ymStr y m).toList =
      zpad 4 (natDigits y) ++ '-' :: zpad 2 (natDigits m) := rfl
  have hsplit : pySplit '-' ((ymStr y m).toList) [] =
      [zpad 4 (natDigits y), zpad 2 (natDigits m)] := by
    rw [hty, pySplit_with_sep '-' _ _ _ (dash_not_mem_zpad 4 y),
      pySplit_no_sep '-' _ _ (dash_not_mem_zpad 2 m)]
    simp
  have hmap : (pySplit '-' ((ymStr y m).toList) []).map pyIntChars? =
      [some (y : Int), some (m : Int)] := by
    rw [hsplit, List.map_cons, List.map_cons, List.map_nil,
      pyIntChars_zpad, pyIntChars_zpad]
  have c1 : (1 : Int) ≤ (y : Int) := by exact_mod_cast hy1
  have c2 : (y : Int) ≤ 9999 := by exact_mod_cast hy2
  have c3 : (1 : Int) ≤ (m : Int) := by exact_mod_cast hm1
  have c4 : (m : Int) ≤ 12 := by exact_mod_cast hm2
  have hmap2 : List.map pyIntChars? (pySplit '-' ((ymStr y m).data) []) =
      [some (y : Int), some (m : Int)] := hmap
  simp [month_ends, hmap2, c1, c2, c3, c4]

theorem monthlen_bounds (y m : Nat) : 28 ≤ monthlen y m ∧ monthlen y m ≤ 31 := by
  refine ⟨?_, ?_⟩ <;> (unfold monthlen; split_ifs <;> omega)

/-- C6.  For every valid `YYYY-MM` string (year 1..9999, month 1..12,
zero-padded), `month_ends` returns the first and last day of that month as
`YYYY-MM-DD` strings, the last day being the actual (leap-aware) month
length, between 28 and 31, with February having 29 days exactly in leap
years. -/
theorem claim_C6_month_ends (y m : Nat) (hy1 : 1 ≤ y) (hy2 : y ≤ 9999)
    (hm1 : 1 ≤ m) (hm2 : m ≤ 12) :
    month_ends (ymStr y m) = some (dateIso y m 1, dateIso y m (monthlen y m)) ∧
    28 ≤ monthlen y m ∧ monthlen y m ≤ 31 ∧
    (m = 2 → monthlen y m = if isleap y then 29 else 28) := by
  refine ⟨month_ends_ymStr y m hy1 hy2 hm1 hm2, (monthlen_bounds y m).1,
    (monthlen_bounds y m).2, fun h2 => ?_⟩
  rw [h2]
  rfl

/-- C6, witness: February 2020 (a leap year). -/
theorem claim_C6_witness :
    month_ends "2020-02" = some ("2020-02-01", "2020-02-29") := by
  have h := (claim_C6_month_ends 2020 2 (by omega) (by omega) (by omega) (by omega)).1
  have e1 : ymStr 2020 2 = "2020-02" := by decide
  have e2 : dateIso 2020 2 1 = "2020-02-01" := by decide
  have e3 : dateIso 2020 2 (monthlen 2020 2) = "2020-02-29" := by decide
  rw [e1, e2, e3] at h
  exact h

theorem validate_date_neg (z : Int) (hz : z < 0) :
    validate_date (intStr z) = Except.ok true := by
  have hp : pyInt? (intStr z) = some (-(z.natAbs : Int)) := by
    rw [intStr, if_pos hz]
    show pyIntChars? ('-' :: natDigits z.natAbs) = _
    rw [pyIntChars_neg_digits _ (natDigits_ne_nil _) (natDigits_all _),
      valFold_natDigits]
  have hz0 : z ≠ 0 := by omega
  rw [validate_date, hp]
  simp [hz0]

theorem validate_date_fail (s : String)
    (hn : ∀ k : Int, pyInt? s = some k → 0 ≤ k)
    (hd : strptimeYmd? s = none) :
    validate_date s = Except.error PyError.invalidDate := by
  rw [validate_date]
  have hcond : (match pyInt? s with
      | some n => decide (n < 0) | none => false) = false := by
    cases hk : pyInt? s with
    | none => rfl
    | some k => simpa using hn k hk
  rw [hcond]
  simp [hd]

/-- C7, counterexample.  The string `2020-1-5` is neither a negative-integer
string nor a (zero-padded) `YYYY-MM-DD` calendar date, yet `validate_date`
accepts it: the strptime format `%Y-%m-%d` also matches one-digit month and
day fields. -/
theorem claim_C7_cex :
    isNegIntString "2020-1-5" = false ∧ isYmdString "2020-1-5" = false ∧
    validate_date "2020-1-5" = Except.ok true := by decide

/-- C7, amended.  `validate_date` accepts `str(n)` for every negative
integer `n`; it rejects, with the error message naming the accepted forms,
every string whose `int()` value is not negative and that the `%Y-%m-%d`
strptime format (which also admits unpadded one-digit month/day) does not
accept. -/
theorem claim_C7_amended :
    (∀ z : Int, z < 0 → validate_date (intStr z) = Except.ok true) ∧
    (∀ s : String, (∀ k : Int, pyInt? s = some k → 0 ≤ k) →
      strptimeYmd? s = none →
      validate_date s = Except.error PyError.invalidDate) ∧
    PyError.invalidDate.message =
      "Dates must be negative integers or YYYY-MM[-DD] in the past." :=
  ⟨validate_date_neg, validate_date_fail, rfl⟩

/-- C7, witness: `-7` is accepted; `hello` is rejected. -/
theorem claim_C7_witness :
    validate_date "-7" = Except.ok true ∧
    validate_date "hello" = Except.error PyError.invalidDate := by
  constructor
  · have h := claim_C7_amended.1 (-7) (by omega)
    have e : intStr (-7) = "-7" := by decide
    rwa [e] at h
  · refine claim_C7_amended.2.1 "hello" ?_ (by decide)
    intro k hk
    rw [show pyInt? "hello" = none from by decide] at hk
    cases hk

theorem specDedupGo_congr : ∀ f1 f2 : Nat, ∀ l : List Field,
    l.length ≤ f1 → l.length ≤ f2 → specDedupGo f1 l = specDedupGo f2 l := by
  intro f1
  induction f1 with
  | zero =>
    intro f2 l h1 h2
    have hl : l = [] := List.length_eq_zero.mp (by omega)
    subst hl
    cases f2 <;> rfl
  | succ f ih =>
    intro f2 l h1 h2
    cases l with
    | nil => cases f2 <;> rfl
    | cons a l =>
      cases f2 with
      | zero => simp at h2
      | succ f2 =>
        simp only [specDedupGo]
        congr 1
        have hf := List.length_filter_le (fun g => decide (g ≠ a)) l
        apply ih
        · simp at h1; omega
        · simp at h2; omega

theorem spec_dedup_cons (a : Field) (l : List Field) :
    spec_dedup (a :: l) = a :: spec_dedup (l.filter (fun g => decide (g ≠ a))) := by
  show specDedupGo (a :: l).length (a :: l) = _
  have hlen : (a :: l).length = l.length + 1 := rfl
  rw [hlen]
  simp only [specDedupGo]
  congr 1
  exact specDedupGo_congr _ _ _ (List.length_filter_le _ _) (le_refl _)

theorem spec_dedup_subset : ∀ (n : Nat) (l : List Field), l.length ≤ n →
    ∀ f ∈ spec_dedup l, f ∈ l := by
  intro n
  induction n with
  | zero =>
    intro l h f hf
    have hl : l = [] := List.length_eq_zero.mp (by omega)
    subst hl
    simp [spec_dedup, specDedupGo] at hf
  | succ n ih =>
    intro l h f hf
    cases l with
    | nil => simp [spec_dedup, specDedupGo] at hf
    | cons a l =>
      rw [spec_dedup_cons] at hf
      rcases List.mem_cons.mp hf with h1 | h1
      · exact h1 ▸ List.mem_cons_self a l
      · have hlen : (l.filter (fun g => decide (g ≠ a))).length ≤ n := by
          have := List.length_filter_le (fun g => decide (g ≠ a)) l
          simp at h
          omega
        exact List.mem_cons_of_mem a
          (List.mem_of_mem_filter (ih _ hlen f h1))

theorem dedup_loop_eq : ∀ (l : List Field) (used : List Field),
    dedup_loop used l = spec_dedup (l.filter (fun g => decide (g ∉ used))) := by
  intro l
  induction l with
  | nil => intro used; rfl
  | cons a l ih =>
    intro used
    by_cases ha : a ∈ used
    · simp only [dedup_loop, if_pos ha]
      rw [ih used]
      congr 1
      simp [List.filter_cons, ha]
    · simp only [dedup_loop, if_neg ha]
      rw [ih (a :: used)]
      have hfc : (a :: l).filter (fun g => decide (g ∉ used)) =
          a :: l.filter (fun g => decide (g ∉ used)) := by
        simp [List.filter_cons, ha]
      rw [hfc, spec_dedup_cons, List.filter_filter]
      have hpred : List.filter (fun g => decide (g ∉ a :: used)) l =
          List.filter (fun g => decide (g ≠ a) && decide (g ∉ used)) l := by
        apply List.filter_congr
        intro x hx
        rw [Bool.eq_iff_iff]
        simp [List.mem_cons]
      rw [hpred]

theorem dedup_loop_nil_used (l : List Field) : dedup_loop [] l = spec_dedup l := by
  rw [dedup_loop_eq l []]
  congr 1
  apply List.filter_eq_self.mpr
  intro a ha
  simp

/-- C5, counterexample.  When the requested field list itself contains
`Downloads`, the emitted SELECT holds it twice (once from the deduplicated
request, once from the unconditional append), not exactly once. -/
theorem claim_C5_cex :
    (selected_fields [Downloads]).count Downloads ≠ 1 := by decide

/-- C5, amended.  For every requested list that does not already contain
`Downloads`, the selected fields are the request deduplicated by identity in
first-occurrence order, followed by `Downloads`, which appears exactly once
and last.  (If the request contains `Downloads`, it is selected twice.) -/
theorem claim_C5_amended (fs : List Field) (h : Downloads ∉ fs) :
    selected_fields fs = spec_dedup fs ++ [Downloads] ∧
    (selected_fields fs).count Downloads = 1 ∧
    (selected_fields fs).getLast? = some Downloads := by
  have he : selected_fields fs = spec_dedup fs ++ [Downloads] := by
    rw [selected_fields, dedup_loop_nil_used]
  have hnd : Downloads ∉ spec_dedup fs := fun hm =>
    h (spec_dedup_subset fs.length fs (le_refl _) Downloads hm)
  refine ⟨he, ?_, ?_⟩
  · rw [he, List.count_append, List.count_eq_zero_of_not_mem hnd]
    rfl
  · rw [he, List.getLast?_concat]

/-- C5, witness: a request with a duplicate (and without `Downloads`). -/
theorem claim_C5_witness :
    Downloads ∉ ([⟨"country", "country_code"⟩, ⟨"version", "file.version"⟩,
      ⟨"country", "country_code"⟩] : List Field) ∧
    selected_fields [⟨"country", "country_code"⟩, ⟨"version", "file.version"⟩,
      ⟨"country", "country_code"⟩] =
      [⟨"country", "country_code"⟩, ⟨"version", "file.version"⟩, Downloads] := by
  refine ⟨by decide, ?_⟩
  have h := (claim_C5_amended [⟨"country", "country_code"⟩,
    ⟨"version", "file.version"⟩, ⟨"country", "country_code"⟩] (by decide)).1
  exact h.trans (by decide)

/-- C9, counterexample.  The claim quantifies over every supplied day-count,
but a supplied day-count of `0` is falsy in Python, so the `if days:` branch
is skipped and no `ValueError` is raised even though the end bound is not an
integer: the build succeeds. -/
theorem claim_C9_cex :
    build_query [] "foo" [] none (some "2021-01-01") (some 0) none none none false =
      Except.ok
        ("SELECT\n  COUNT(*) as download_count,\n" ++
         "FROM `bigquery-public-data.pypi.file_downloads`\n" ++
         "WHERE timestamp BETWEEN TIMESTAMP_ADD(CURRENT_TIMESTAMP(), INTERVAL -31 DAY)" ++
         " AND TIMESTAMP(\"2021-01-01 23:59:59\")\n" ++
         "  AND file.project = \"foo\"\n" ++
         "ORDER BY\n  download_count DESC\nLIMIT 10") := by decide

/-- C9, amended.  If a NONZERO day-count is supplied and the (possibly
defaulted) end bound is not an integer string, `build_query` raises the
uncaught `ValueError` from `int(end_date)` while computing
`start = end - days`, before any of the documented date validation errors
can apply (the error is the `int()` literal error, not `InvalidDate` or the
range error). -/
theorem claim_C9_amended (aggregates : List Field) (project : String)
    (all_fields : List Field) (start_date end_date : Option String)
    (d : Int) (limit : Option Int) (where_ order : Option String) (pip : Bool)
    (hd : d ≠ 0) (he : pyInt? (pyOrStr end_date END_DATE) = none) :
    build_query aggregates project all_fields start_date end_date (some d)
        limit where_ order pip =
      Except.error (PyError.intLiteral (pyOrStr end_date END_DATE)) := by
  rw [build_query.eq_def]
  simp [hd, he, Bind.bind, Except.bind]

/-- C9, witness: seven days before a calendar end bound. -/
theorem claim_C9_witness :
    (7 : Int) ≠ 0 ∧ pyInt? "2021-01-01" = none ∧
    build_query [] "foo" [] none (some "2021-01-01") (some 7) none none none false =
      Except.error (PyError.intLiteral "2021-01-01") := by
  refine ⟨by decide, by decide, ?_⟩
  have h := claim_C9_amended [] "foo" [] none (some "2021-01-01") 7 none none none
    false (by decide) (by decide)
  exact h.trans (by decide)

/-- C8.  `add_percentages` pops the header, finds the `download_count`
column, inserts a `percent` header immediately before it, and inserts into
every data row, at that same index, the formatted share of the row value in
the column total. -/
theorem claim_C8_add_percentages (headers : List String)
    (data : List (List String)) (i : Nat) (vals : List Int)
    (hfind : headers.findIdx? (fun h => h = "download_count") = some i)
    (hvals : omapM (fun row => (row.get? i).bind pyInt?) data = some vals)
    (htot : vals.foldl (· + ·) 0 ≠ 0) :
    add_percentages (headers :: data) true =
      some (list_insert i "percent" headers ::
        (data.zip vals).map (fun rv =>
          list_insert i (pyFormatPercent rv.2 (vals.foldl (· + ·) 0)) rv.1)) := by
  rw [add_percentages]
  simp only [List.get?_eq_getElem?] at hvals
  simp [hfind, hvals, htot, percent_cell]

/-- C8, witness: the spec table with `download_count` values 10, 30, 60
yields the signed percentages `10.00%`, `30.00%`, `60.00%`, inserted
immediately before the `download_count` column. -/
theorem claim_C8_witness :
    add_percentages [["name", "download_count"],
        ["a", "10"], ["b", "30"], ["c", "60"]] true =
      some [["name", "percent", "download_count"],
        ["a", "10.00%", "10"], ["b", "30.00%", "30"], ["c", "60.00%", "60"]] := by
  have h := claim_C8_add_percentages ["name", "download_count"]
    [["a", "10"], ["b", "30"], ["c", "60"]] 1 [10, 30, 60]
    (by decide) (by decide) (by decide)
  exact h.trans (by decide)

theorem getD_replicate {α : Type} (a : α) :
    ∀ k i : Nat, (List.replicate k a).getD i a = a := by
  intro k
  induction k with
  | zero => intro i; simp
  | succ k ih =>
    intro i
    cases i with
    | zero => rfl
    | succ i => simp [List.replicate_succ, ih i]

theorem row_pass_length : ∀ (row : List String) (ws : List Nat) (fs : List Bool),
    (row_pass ws fs row).1.length = ws.length ∧
    (row_pass ws fs row).2.length = fs.length := by
  intro row
  induction row with
  | nil => intro ws fs; cases ws <;> cases fs <;> exact ⟨rfl, rfl⟩
  | cons item row ih =>
    intro ws fs
    cases ws with
    | nil => exact ⟨rfl, rfl⟩
    | cons w ws =>
      cases fs with
      | nil => exact ⟨rfl, rfl⟩
      | cons f fs => simpa [row_pass] using ih ws fs

theorem row_pass_getD : ∀ (row : List String) (ws : List Nat) (fs : List Bool)
    (i : Nat), ws.length = fs.length → row.length = ws.length →
    (row_pass ws fs row).1.getD i 0 = max (ws.getD i 0) ((row.getD i "").length) ∧
    (row_pass ws fs row).2.getD i false =
      (fs.getD i false || cell_qualifies (row.getD i "")) := by
  intro row
  induction row with
  | nil =>
    intro ws fs i h1 h2
    simp only [List.length_nil] at h2
    have hws : ws = [] := List.length_eq_zero.mp (by omega)
    subst hws
    simp only [List.length_nil] at h1
    have hfs : fs = [] := List.length_eq_zero.mp (by omega)
    subst hfs
    constructor
    · simp [row_pass]
    · simp [row_pass]
      decide
  | cons item row ih =>
    intro ws fs i h1 h2
    cases ws with
    | nil => simp at h2
    | cons w ws =>
      cases fs with
      | nil => simp at h1
      | cons f fs =>
        have h1l : ws.length = fs.length := by simpa using h1
        have h2l : row.length = ws.length := by simpa using h2
        cases i with
        | zero => exact ⟨rfl, rfl⟩
        | succ i =>
          have := ih ws fs i h1l h2l
          simpa [row_pass] using this

theorem table_pass_go_getD : ∀ (rows : List (List String)) (ws : List Nat)
    (fs : List Bool) (i : Nat), ws.length = fs.length →
    (∀ r ∈ rows, r.length = ws.length) →
    ((rows.foldl (fun acc row => row_pass acc.1 acc.2 row) (ws, fs)).1.getD i 0 =
      rows.foldl (fun a r => max a ((r.getD i "").length)) (ws.getD i 0)) ∧
    ((rows.foldl (fun acc row => row_pass acc.1 acc.2 row) (ws, fs)).2.getD i false =
      rows.foldl (fun a r => a || cell_qualifies (r.getD i "")) (fs.getD i false)) := by
  intro rows
  induction rows with
  | nil => intro ws fs i h1 h2; exact ⟨rfl, rfl⟩
  | cons r rows ih =>
    intro ws fs i h1 h2
    have hr : r.length = ws.length := h2 r (by simp)
    have hlen := row_pass_length r ws fs
    have hstep := row_pass_getD r ws fs i h1 hr
    have hrec := ih (row_pass ws fs r).1 (row_pass ws fs r).2 i
      (by rw [hlen.1, hlen.2, h1])
      (fun rr hrr => by rw [hlen.1]; exact h2 rr (List.mem_cons_of_mem _ hrr))
    rw [List.foldl_cons, List.foldl_cons, List.foldl_cons]
    rw [← hstep.1, ← hstep.2]
    exact hrec

theorem foldl_or_any (p : List String → Bool) : ∀ (rows : List (List String))
    (b : Bool), rows.foldl (fun a r => a || p r) b = (b || rows.any p) := by
  intro rows
  induction rows with
  | nil => intro b; simp
  | cons r rows ih => intro b; simp [List.foldl_cons, ih, Bool.or_assoc]

/-- C2, counterexample.  The claim says the column width is the maximum
DISPLAYED cell length, measured after the thousands-separator rewrite; the
source measures `len(item)` where `item` still holds the cell before the
rewrite, so for the table `[["x"], ["1234567"]]` the computed width is 7
while the displayed width of `1,234,567` is 9. -/
theorem claim_C2_cex :
    tabulateWidths [["x"], ["1234567"]] ≠ claimed_widths [["x"], ["1234567"]] := by
  decide

/-- C2, amended.  Each column width equals the maximum PRE-REWRITE cell
length in that column (digit-only cells are still rewritten with thousands
separators and right-aligned when rendered); in the spec example the cell
`1234567` renders as `1,234,567`, right-aligned, and the column width 14
(from the header `download_count`) is at least its rendered length 9. -/
theorem claim_C2_amended :
    (∀ (rows : List (List String)) (n i : Nat),
      (∀ r ∈ rows, r.length = n) → rows ≠ [] →
      (tabulateWidths rows).getD i 0 =
        rows.foldl (fun a r => max a ((r.getD i "").length)) 0) ∧
    tabulate [["name", "download_count"], ["a", "1234567"]] false =
      some "| name | download_count |\n| ---- | -------------- |\n| a    |      1,234,567 |\n" := by
  constructor
  · intro rows n i hrect hne
    have hh : (rows.headD []).length = n := by
      cases rows with
      | nil => exact absurd rfl hne
      | cons r rows => exact hrect r (by simp)
    rw [tabulateWidths, table_pass, hh]
    have h := (table_pass_go_getD rows (List.replicate n 0)
      (List.replicate n false) i (by simp)
      (fun r hr => by rw [List.length_replicate]; exact hrect r hr)).1
    rw [h, getD_replicate]
  · decide

/-- C2, witness: the spec example has rectangular rows of width 2, and the
`download_count` column width is 14, the maximum pre-rewrite length. -/
theorem claim_C2_witness :
    (([["name", "download_count"], ["a", "1234567"]] : List (List String)) ≠ []) ∧
    (tabulateWidths [["name", "download_count"], ["a", "1234567"]]).getD 1 0 = 14 := by
  refine ⟨by decide, ?_⟩
  have h := claim_C2_amended.1 [["name", "download_count"], ["a", "1234567"]] 2 1
    (by decide) (by decide)
  exact h.trans (by decide)

/-- C10.  Right-alignment in `tabulate` is per column, not per cell: the
`right_align` rows all alias one list in the source, so if ANY cell of a
column (header included) is digit-only or ends in `%`, the per-column flag
is set and EVERY data cell of that column is rendered right-aligned
(left-padded), including non-numeric cells. -/
theorem claim_C10_alignment (rows : List (List String)) (n i : Nat)
    (hrect : ∀ r ∈ rows, r.length = n) (hne : rows ≠ [])
    (hq : ∃ r ∈ rows, cell_qualifies (r.getD i "") = true) :
    (tabulateFlags rows).getD i false = true ∧
    ∀ (w : Nat) (item : String),
      render_data_cell w ((tabulateFlags rows).getD i false) item =
        "| " ++ (pySpaces ((w : Int) - item.length) ++ item ++ " ") := by
  have hh : (rows.headD []).length = n := by
    cases rows with
    | nil => exact absurd rfl hne
    | cons r rows => exact hrect r (by simp)
  have hflag : (tabulateFlags rows).getD i false = true := by
    rw [tabulateFlags, table_pass, hh]
    have h := (table_pass_go_getD rows (List.replicate n 0)
      (List.replicate n false) i (by simp)
      (fun r hr => by rw [List.length_replicate]; exact hrect r hr)).2
    rw [h, getD_replicate, foldl_or_any]
    simpa [List.any_eq_true] using hq
  refine ⟨hflag, fun w item => ?_⟩
  rw [hflag]
  simp [render_data_cell]

/-- C10, witness: the digit cell `5` right-aligns the whole second column,
so the non-numeric cell `q` of the last row is also rendered right-aligned. -/
theorem claim_C10_witness :
    (∃ r ∈ ([["h1", "h2"], ["abc", "5"], ["xy", "q"]] : List (List String)),
      cell_qualifies (r.getD 1 "") = true) ∧
    (tabulateFlags [["h1", "h2"], ["abc", "5"], ["xy", "q"]]).getD 1 false = true ∧
    render_data_cell 3
      ((tabulateFlags [["h1", "h2"], ["abc", "5"], ["xy", "q"]]).getD 1 false) "q" =
      "|   q " := by
  have h := claim_C10_alignment [["h1", "h2"], ["abc", "5"], ["xy", "q"]] 2 1
    (by decide) (by decide) (by decide)
  exact ⟨by decide, h.1, (h.2 3 "q").trans (by decide)⟩

end Pypinfo
